import Mathlib

/-!
Shallow embedding of `src/deploy.py` (a script that deploys a Pynecone app to a
hosted "Space" by duplicating a template repository and committing add/delete
file operations), together with proofs about the properties stated in the
repository's specification.

Python strings are modelled as `List Char`; the regular-expression based pieces
of the script (`re.sub(r"\W", "-", ...)`, `re.sub(r"-+", "-", ...)`,
`re.search(r"app_name=[\x22'](?P<app_name>.+)[\x22'],", ...)`) are modelled by
executable functions with Python's semantics (leftmost match, greedy group,
`.` not matching a newline).  ASCII is assumed where Python's default Unicode
word classes differ (`Char.isAlphanum` matches Python's `\w` exactly on ASCII
characters); theorems that depend on the character class carry an explicit
ASCII hypothesis.
-/

namespace PyneconeDeploy

/-- Python strings are modelled as lists of characters. -/
abbrev Str := List Char

/-- `isPrefixL p s`: `p` is a prefix of `s` (Python `str.startswith` /
the anchored part of a regex match). -/
def isPrefixL : Str → Str → Bool
  | [], _ => true
  | _ :: _, [] => false
  | a :: as, b :: bs => a = b && isPrefixL as bs

/-- `hasSub pat s`: Python's `pat in s` substring test
(used for the `"__pycache__" not in str(path)` filter). -/
def hasSub (pat : Str) : Str → Bool
  | [] => pat.isEmpty
  | c :: rest => isPrefixL pat (c :: rest) || hasSub pat rest

/-- Fuel-indexed worker for `replaceAll`.  The fuel starts at the length of the
string, which bounds the number of steps (each step consumes at least one
character), so the fuel never runs out on the initial call. -/
def replaceAllFuel (pat repl : Str) : Nat → Str → Str
  | _, [] => []
  | 0, s => s
  | fuel + 1, c :: rest =>
    if isPrefixL pat (c :: rest) && !pat.isEmpty then
      repl ++ replaceAllFuel pat repl fuel ((c :: rest).drop pat.length)
    else
      c :: replaceAllFuel pat repl fuel rest

/-- Python `s.replace(pat, repl)` for a nonempty literal `pat`: replace every
nonoverlapping occurrence, scanning left to right.  (The script only ever
calls `.replace` with nonempty string literals.) -/
def replaceAll (pat repl s : Str) : Str := replaceAllFuel pat repl s.length s

/-- Python `s.split("-")` (a literal one-character separator, as used on the
curated app name): `"" ↦ [""]`, `"a-b" ↦ ["a", "b"]`, `"-" ↦ ["", ""]`. -/
def splitOnDash : Str → List Str
  | [] => [[]]
  | c :: rest =>
    if c = '-' then [] :: splitOnDash rest
    else
      match splitOnDash rest with
      | g :: gs => (c :: g) :: gs
      | [] => [[c]]

/-- Fuel-indexed worker for `splitOnSub`; fuel bounded by the string length. -/
def splitOnSubFuel (sep : Str) : Nat → Str → List Str
  | _, [] => [[]]
  | 0, s => [s]
  | fuel + 1, c :: rest =>
    if isPrefixL sep (c :: rest) && !sep.isEmpty then
      [] :: splitOnSubFuel sep fuel ((c :: rest).drop sep.length)
    else
      match splitOnSubFuel sep fuel rest with
      | g :: gs => (c :: g) :: gs
      | [] => [[c]]

/-- Python `s.split(sep)` for a nonempty literal separator (the script calls
`app_name.split('_|-')` — note that Python's `str.split` splits on the literal
three-character string `"_|-"`, not on a regular expression). -/
def splitOnSub (sep s : Str) : List Str := splitOnSubFuel sep s.length s

/-- Python `s.capitalize()` on ASCII text: first character upper-cased, the
rest lower-cased. -/
def capitalizePy : Str → Str
  | [] => []
  | c :: rest => c.toUpper :: rest.map Char.toLower

/-- Python's `\w` word-character class restricted to ASCII:
`[A-Za-z0-9_]`.  (Python's default is the Unicode word class; the two agree on
every ASCII character.) -/
def wordCharB (c : Char) : Bool := c.isAlphanum || c = '_'

/-- One character of `re.sub(r"\W", "-", s)`: non-word characters become
`'-'`, word characters (including `'_'`) are kept. -/
def subNonWord (c : Char) : Char := if wordCharB c then c else '-'

/-- `re.sub(r"-+", "-", s)`: collapse every maximal run of `'-'` into a
single `'-'`. -/
def collapseDashes : Str → Str
  | [] => []
  | c :: rest =>
    match rest with
    | d :: _ => if c = '-' ∧ d = '-' then collapseDashes rest
                else c :: collapseDashes rest
    | [] => [c]

/-- Python `s.strip("-")`: remove leading and trailing `'-'` characters. -/
def stripDashes (s : Str) : Str :=
  ((s.dropWhile (fun c => c = '-')).reverse.dropWhile (fun c => c = '-')).reverse

/-- The "curated" app name of `deploy.py` line 50:
`re.sub(r"-+", "-", re.sub(r"\W", "-", app_name)).strip("-")`. -/
def curatedAppName (s : Str) : Str :=
  stripDashes (collapseDashes (s.map subNonWord))

/-- The regex character class `[\x22']` (double or single quote). -/
def isQuote (c : Char) : Bool := c = '"' || c = '\x27'

/-- Can the tail of the regex `(?P<app_name>.+)[\x22'],` match with a group of
exactly `k` characters taken from `rest`?  The group characters must all be
matched by `.` (anything but a newline) and must be followed by a quote and a
comma. -/
def groupOK (rest : Str) (k : Nat) : Bool :=
  ((rest.take k).all fun c => !(c = '\n')) &&
  (match rest.drop k with
   | q :: c :: _ => isQuote q && c = ','
   | _ => false)

/-- Greedy matching of `(.+)[\x22'],`: try the longest candidate group first,
exactly like the backtracking order of Python's greedy `.+`.  Group lengths
`k+1` down to `1` are tried; `0` is excluded because `+` requires at least one
character. -/
def greedyAux (rest : Str) : Nat → Option Str
  | 0 => none
  | k + 1 => if groupOK rest (k + 1) then some (rest.take (k + 1))
             else greedyAux rest k

/-- Try to match `app_name=[\x22'](?P<app_name>.+)[\x22'],` at the start of
`s`, returning the captured group (Python's greedy semantics). -/
def matchGroupAt (s : Str) : Option Str :=
  if isPrefixL ("app_name=".toList) s then
    match s.drop 9 with
    | q :: rest => if isQuote q then greedyAux rest rest.length else none
    | [] => none
  else none

/-- `re.search(r"app_name=[\x22'](?P<app_name>.+)[\x22'],", text)`: the match
at the leftmost possible starting position wins; within a starting position
the group is greedy. -/
def searchAppName : Str → Option Str
  | [] => none
  | c :: rest =>
    match matchGroupAt (c :: rest) with
    | some g => some g
    | none => searchAppName rest

/-- The Space title (`deploy.py` lines 85-87):
`" ".join(item.capitalize() for item in curated_app_name.split("-"))`. -/
def titleOf (curated : Str) : Str :=
  List.intercalate (" ".toList) ((splitOnDash curated).map capitalizePy)

/-- The synthesized README body used when no local `README.md` exists
(`deploy.py` lines 97-105).  The source file literally contains the
double-encoded bytes rendered as `ðŸ¤—`, reproduced verbatim here. -/
def synthesizedReadme (app_name : Str) : Str :=
  ("## ðŸ¤— Spaces x Pynecone\n\nThis ").toList
  ++ (" ").toList
  ++ List.intercalate (" ".toList) ((splitOnSub ("_|-".toList) app_name).map capitalizePy)
  ++ (" Space has been duplicated from the [Pynecone on Spaces template](https://huggingface.co/spaces/Wauplin/pynecone-on-spaces-template).\n\nTo host and deploy your own Pynecone app on ðŸ¤— Spaces, check out [the instructions](https://huggingface.co/spaces/Wauplin/pynecone-on-spaces-template/blob/main/README.md).").toList

/-- The contents handed to a `CommitOperationAdd`.  The repo-card content
(`duplicated_repo_card.content.encode()`) is kept symbolic as its loaded
metadata (everything except the title), the title set on it, and the body
text set on it; the script never inspects the rendered card bytes. -/
inductive FileContent where
  | bytes (data : Str)
  | localFile (path : Str)
  | card (meta : Str) (title : Str) (text : Str)
deriving DecidableEq

/-- `huggingface_hub.CommitOperationAdd` / `CommitOperationDelete`. -/
inductive CommitOperation where
  | add (path_in_repo : Str) (content : FileContent)
  | delete (path_in_repo : Str) (is_folder : Bool)
deriving DecidableEq

/-- The outward-visible actions of a run, in order.  `cacheDownload` models
`hf_hub_download`, which performs a network GET **and writes the downloaded
file into the local hub cache directory**, returning its local path.
`RepoCard.load` called with a repo id (not a local path) internally performs
an `hf_hub_download` of the card file `README.md` into the same cache, so
`deploy` emits that internal download as a `cacheDownload` effect right
after `loadCardCall`. -/
inductive Effect where
  | whoamiCall
  | provisionCall (repo_id : Str) (priv : Bool)
  | loadCardCall (repo_id : Str)
  | cacheDownload (repo_id : Str) (filename : Str)
  | commitCall (repo_id : Str) (message : Str) (operations : List CommitOperation)
deriving DecidableEq

/-- The ways a run can terminate abnormally.  The first four model the
`ValueError`s raised by the precondition checks (each message names the
missing file/folder/field); `notLoggedIn` models `whoami` failing;
`unboundLocalIsNew` models the Python `UnboundLocalError` raised at
`if is_new:` when the provisioning response had a non-409 error status (the
`except` clause swallows the `HfHubHTTPError` and assigns `is_new` only for
status 409). -/
inductive DeployError where
  | configNotFound
  | appNameNotFound
  | appFolderNotFound (name : Str)
  | assetsFolderNotFound
  | notLoggedIn
  | unboundLocalIsNew
deriving DecidableEq

/-- The environment a run of `deploy` observes.

* `folders` maps a path relative to the config file's directory to the
  recursive list of the *files* inside that directory (each file path given
  relative to the directory itself, as produced by `glob("**/*")` filtered by
  `is_file()`); `none`/absence means `is_dir()` is false.  The app folder and
  the `assets` folder are both looked up here, so an app literally named
  `assets` shares the folder with the assets sync, exactly as on a real file
  system.
* `cwdReadme` is the body text of a `README.md` in the **process's current
  working directory** if one exists — the script tests `Path("README.md")`,
  a relative path, which Python resolves against the CWD.
* `configDirReadme` is the body text of a `README.md` sitting **next to the
  config file**; the script never opens that path.
* `username` is the result of `whoami` (`none` = not authenticated).
* `provisionStatus` is the HTTP status of the duplicate-repository POST;
  `hf_raise_for_status` raises exactly for statuses `≥ 400`.
* `remoteCardMeta` stands for the metadata of the duplicated Space's repo
  card; `remotePcconfigDocker` and `remoteDockerfile` are the text of the
  template's `pcconfig_docker.py` and `Dockerfile`. -/
structure Env where
  configExists : Bool
  configText : Str
  folders : List (Str × List Str)
  hasRequirements : Bool
  cwdReadme : Option Str
  configDirReadme : Option Str
  username : Option Str
  isPrivate : Bool
  provisionStatus : Nat
  remoteCardMeta : Str
  remotePcconfigDocker : Str
  remoteDockerfile : Str

/-- Result of a run: the effects performed (in order) and the abnormal
termination, if any. -/
structure DeployResult where
  effects : List Effect
  error : Option DeployError
deriving DecidableEq

/-- The `is_new` variable after the `try/except` around
`hf_raise_for_status(response)`: success (`status < 400`) assigns `True`,
a 409 error assigns `False`, and any other error status leaves the variable
unassigned (`none`) because the `except` branch only handles 409. -/
def isNewStatus (status : Nat) : Option Bool :=
  if status < 400 then some true
  else if status = 409 then some false
  else none

/-- The body text used for the repository card: the local `README.md` from
the current working directory when present (`RepoCard.load("README.md").text`),
else the synthesized template text. -/
def readmeText (env : Env) (app_name : Str) : Str :=
  match env.cwdReadme with
  | some t => t
  | none => synthesizedReadme app_name

/-- The three Add operations queued only on a first-time deploy
(`deploy.py` lines 80-146): the rewritten repo card as `README.md`, the
template's `pcconfig_docker.py` with `default_app` and the template embed URL
replaced, and the template's `Dockerfile` with `default_app` replaced. -/
def newRepoOps (env : Env) (app_name curated space_url_embed : Str) :
    List CommitOperation :=
  [ .add ("README.md".toList)
      (.card env.remoteCardMeta (titleOf curated) (readmeText env app_name)),
    .add ("pcconfig_docker.py".toList)
      (.bytes (replaceAll
        ("https://wauplin-pynecone-on-spaces-template.hf.space/pynecone-backend".toList)
        (space_url_embed ++ "/pynecone-backend".toList)
        (replaceAll ("default_app".toList) app_name env.remotePcconfigDocker))),
    .add ("Dockerfile".toList)
      (.bytes (replaceAll ("default_app".toList) app_name env.remoteDockerfile)) ]

/-- `deploy.py` lines 152-159: delete-then-add of `requirements.txt` when the
local file exists. -/
def requirementsOps (env : Env) : List CommitOperation :=
  if env.hasRequirements then
    [ .delete ("requirements.txt".toList) false,
      .add ("requirements.txt".toList) (.localFile ("requirements.txt".toList)) ]
  else []

/-- `deploy.py` lines 161-171: unconditional folder delete of `assets`, then
an Add for every file found under the local assets folder; the path in the
repo is the file's path relative to the config directory, i.e.
`"assets/" ++ path-relative-to-the-assets-folder`. -/
def assetsOps (assetsFiles : List Str) : List CommitOperation :=
  .delete ("assets".toList) true ::
    assetsFiles.map fun f =>
      .add ("assets/".toList ++ f) (.localFile ("assets/".toList ++ f))

/-- `deploy.py` lines 173-185: folder delete of `"default_app"` when the
deploy is new, else of the app's own name; then an Add for every file under
the local app folder whose path does not contain `__pycache__`.  (The code
tests `"__pycache__" not in str(path)` on the absolute path; this model
applies the test to the path relative to the config directory, which agrees
whenever the config directory's own absolute path does not contain
`__pycache__`.) -/
def appFolderOps (is_new : Bool) (app_name : Str) (appFiles : List Str) :
    List CommitOperation :=
  .delete (if is_new then "default_app".toList else app_name) true ::
    (appFiles.filter fun f =>
        !(hasSub ("__pycache__".toList) (app_name ++ "/".toList ++ f))).map fun f =>
      .add (app_name ++ "/".toList ++ f) (.localFile (app_name ++ "/".toList ++ f))

/-- The whole run of `deploy` (`deploy.py` lines 19-199), with consoles
prints left unmodelled.  Mirrors the source order: precondition checks,
`whoami`, name curation, the duplicate-repository POST, the `is_new`
branching, the operation list construction, and the single `create_commit`
call. -/
def deploy (env : Env) : DeployResult :=
  if env.configExists then
    match searchAppName env.configText with
    | none => ⟨[], some .appNameNotFound⟩
    | some app_name =>
      match env.folders.lookup app_name with
      | none => ⟨[], some (.appFolderNotFound app_name)⟩
      | some appFiles =>
        match env.folders.lookup ("assets".toList) with
        | none => ⟨[], some .assetsFolderNotFound⟩
        | some assetsFiles =>
          match env.username with
          | none => ⟨[Effect.whoamiCall], some .notLoggedIn⟩
          | some username =>
            let curated := curatedAppName app_name
            let repo_id := username ++ "/".toList ++ curated
            let space_url_embed :=
              "https://".toList ++ username ++ "-".toList ++ curated
                ++ ".hf.space".toList
            match isNewStatus env.provisionStatus with
            | none =>
              ⟨[Effect.whoamiCall, Effect.provisionCall repo_id env.isPrivate],
               some .unboundLocalIsNew⟩
            | some is_new =>
              let operations :=
                (if is_new then newRepoOps env app_name curated space_url_embed
                 else [])
                ++ requirementsOps env
                ++ assetsOps assetsFiles
                ++ appFolderOps is_new app_name appFiles
              let message :=
                if is_new then "Deploy ".toList ++ app_name ++ "!".toList
                else "Update ".toList ++ app_name
              ⟨[Effect.whoamiCall, Effect.provisionCall repo_id env.isPrivate]
                ++ (if is_new then
                      [Effect.loadCardCall repo_id,
                       Effect.cacheDownload repo_id ("README.md".toList),
                       Effect.cacheDownload repo_id ("pcconfig_docker.py".toList),
                       Effect.cacheDownload repo_id ("Dockerfile".toList)]
                    else [])
                ++ [Effect.commitCall repo_id message operations],
               none⟩
  else ⟨[], some .configNotFound⟩

/-- The `(repo_id, message, operations)` of every `create_commit` call in a
list of effects (a successful run makes exactly one). -/
def commitsIn (effs : List Effect) : List (Str × Str × List CommitOperation) :=
  effs.filterMap fun e =>
    match e with
    | .commitCall r m ops => some (r, m, ops)
    | _ => none

/-- All operations submitted by commit calls in a list of effects. -/
def allCommitOps (effs : List Effect) : List CommitOperation :=
  effs.foldr
    (fun e acc =>
      match e with
      | .commitCall _ _ ops => ops ++ acc
      | _ => acc) []

/-- The effects of a run that write to the local file system: exactly the
`hf_hub_download` calls, which store the downloaded file in the local hub
cache. -/
def localWrites (effs : List Effect) : List Effect :=
  effs.filter fun e =>
    match e with
    | .cacheDownload _ _ => true
    | _ => false

/-- The repo path an operation targets. -/
def opPath : CommitOperation → Str
  | .add q _ => q
  | .delete q _ => q

/-- Does an operation target (add to, or delete) the given repo path? -/
def touches (p : Str) (op : CommitOperation) : Bool := opPath op = p

/-! ### Concrete environments used by counterexamples and witnesses -/

/-- A minimal healthy first-time deployment: config `app_name="demo",`,
an app folder `demo/` with one file, an `assets/` folder with one file,
no `requirements.txt`, a local `README.md` in the CWD, provisioning
succeeding (HTTP 200). -/
def demoEnvNew : Env where
  configExists := true
  configText := ("app_name=\"demo\",").toList
  folders := [("demo".toList, ["index.py".toList]),
              ("assets".toList, ["logo.png".toList])]
  hasRequirements := false
  cwdReadme := some ("hello".toList)
  configDirReadme := none
  username := some ("user".toList)
  isPrivate := false
  provisionStatus := 200
  remoteCardMeta := "meta".toList
  remotePcconfigDocker := "x default_app y".toList
  remoteDockerfile := "z default_app".toList

/-- The same layout as `demoEnvNew` but the Space already exists
(provisioning answers HTTP 409). -/
def demoEnvOld : Env := { demoEnvNew with provisionStatus := 409 }

/-- An app literally named `assets` (config `app_name="assets",`, the app
folder and the assets folder are the same directory), redeployed onto an
existing Space (HTTP 409). -/
def assetsNameEnv : Env :=
  { demoEnvNew with
      configText := ("app_name=\"assets\",").toList
      folders := [("assets".toList, ["logo.png".toList])]
      provisionStatus := 409 }

/-- An app literally named `README.md` redeployed onto an existing Space. -/
def readmeNameEnv : Env :=
  { demoEnvNew with
      configText := ("app_name=\"README.md\",").toList
      folders := [("README.md".toList, ["app.py".toList]),
                  ("assets".toList, [])]
      provisionStatus := 409 }

/-- An app whose configured name `---` contains no word character at all, so
the curated name is empty. -/
def dashNameEnv : Env :=
  { demoEnvNew with
      configText := ("app_name=\"---\",").toList
      folders := [("---".toList, []), ("assets".toList, [])] }

/-! ### Properties of the name-curation pipeline -/

/-- "No two consecutive dashes" as a relation on adjacent characters. -/
def noDD (a b : Char) : Prop := ¬(a = '-' ∧ b = '-')

theorem noDD_flip {a b : Char} (h : noDD a b) : noDD b a :=
  fun hc => h ⟨hc.2, hc.1⟩

theorem collapseDashes_cons_cons (c d : Char) (rest : Str) :
    collapseDashes (c :: d :: rest) =
      if c = '-' ∧ d = '-' then collapseDashes (d :: rest)
      else c :: collapseDashes (d :: rest) := rfl

theorem mem_collapseDashes : ∀ {l : Str} {a : Char}, a ∈ collapseDashes l → a ∈ l
  | [], _, h => by simp [collapseDashes] at h
  | [c], _, h => by simpa [collapseDashes] using h
  | c :: d :: rest, a, h => by
    rw [collapseDashes_cons_cons] at h
    split at h
    · exact List.mem_cons_of_mem c (mem_collapseDashes h)
    · rcases List.mem_cons.mp h with h | h
      · exact h ▸ List.mem_cons_self _ _
      · exact List.mem_cons_of_mem c (mem_collapseDashes h)

theorem head?_collapseDashes : ∀ (c : Char) (rest : Str),
    (collapseDashes (c :: rest)).head? = some c
  | _, [] => rfl
  | c, d :: rest => by
    rw [collapseDashes_cons_cons]
    split
    · rename_i hcd
      rw [head?_collapseDashes d rest, hcd.1, hcd.2]
    · rfl

theorem chain'_collapseDashes : ∀ (l : Str), List.Chain' noDD (collapseDashes l)
  | [] => by simp [collapseDashes]
  | [c] => by simp [collapseDashes]
  | c :: d :: rest => by
    rw [collapseDashes_cons_cons]
    split
    · exact chain'_collapseDashes (d :: rest)
    · rename_i hcd
      rw [List.chain'_cons']
      refine ⟨?_, chain'_collapseDashes (d :: rest)⟩
      intro y hy
      rw [head?_collapseDashes d rest, Option.mem_def, Option.some.injEq] at hy
      exact fun hc => hcd ⟨hc.1, hy ▸ hc.2⟩

theorem mem_stripDashes {a : Char} {l : Str} (h : a ∈ stripDashes l) : a ∈ l := by
  unfold stripDashes at h
  rw [List.mem_reverse] at h
  have h1 := (List.dropWhile_sublist (l := (l.dropWhile fun c => c = '-').reverse)
    (fun c => c = '-')).mem h
  rw [List.mem_reverse] at h1
  exact (List.dropWhile_sublist (fun c => c = '-')).mem h1

theorem chain'_noDD_reverse {l : Str} (h : List.Chain' noDD l) :
    List.Chain' noDD l.reverse := by
  rw [List.chain'_reverse]
  exact h.imp fun _ _ hab => noDD_flip hab

theorem chain'_dropWhile_dash {l : Str} (h : List.Chain' noDD l) :
    List.Chain' noDD (l.dropWhile fun c => c = '-') := by
  have := List.takeWhile_append_dropWhile (fun c => c = '-') l
  exact List.Chain'.right_of_append (this ▸ h)

theorem chain'_stripDashes {l : Str} (h : List.Chain' noDD l) :
    List.Chain' noDD (stripDashes l) :=
  chain'_noDD_reverse (chain'_dropWhile_dash (chain'_noDD_reverse
    (chain'_dropWhile_dash h)))

theorem head?_dropWhile_dash : ∀ (l : Str),
    (l.dropWhile fun c => c = '-').head? ≠ some '-'
  | [] => by simp
  | c :: rest => by
    rw [List.dropWhile_cons]
    split
    · exact head?_dropWhile_dash rest
    · rename_i hc
      simp only [List.head?_cons, ne_eq, Option.some.injEq]
      intro he
      exact hc (by simp [he])

theorem getLast?_stripDashes (l : Str) : (stripDashes l).getLast? ≠ some '-' := by
  unfold stripDashes
  rw [List.getLast?_reverse]
  exact head?_dropWhile_dash _

theorem head?_stripDashes (l : Str) : (stripDashes l).head? ≠ some '-' := by
  unfold stripDashes
  rcases hB : ((l.dropWhile fun c => c = '-').reverse.dropWhile
      fun c => c = '-').reverse with _ | ⟨x, xs⟩
  · simp
  · have hsplit := List.takeWhile_append_dropWhile (fun c => c = '-')
      ((l.dropWhile fun c => c = '-').reverse)
    have hA : (l.dropWhile fun c => c = '-') =
        ((l.dropWhile fun c => c = '-').reverse.dropWhile fun c => c = '-').reverse
          ++ ((l.dropWhile fun c => c = '-').reverse.takeWhile fun c => c = '-').reverse := by
      conv_lhs => rw [← List.reverse_reverse (l.dropWhile fun c => c = '-'),
        ← hsplit]
      rw [List.reverse_append]
    rw [hB] at hA
    have hhead := head?_dropWhile_dash l
    rw [hA] at hhead
    simp only [List.cons_append, List.head?_cons, ne_eq, Option.some.injEq] at hhead
    simp only [List.head?_cons, ne_eq, Option.some.injEq]
    exact hhead

theorem mem_curatedAppName {a : Char} {s : Str} (h : a ∈ curatedAppName s) :
    wordCharB a = true ∨ a = '-' := by
  unfold curatedAppName at h
  have h1 := mem_collapseDashes (mem_stripDashes h)
  rcases List.mem_map.mp h1 with ⟨b, _, hb⟩
  unfold subNonWord at hb
  split at hb
  · rename_i hw; exact Or.inl (hb ▸ hw)
  · exact Or.inr hb.symm

/-! ### Evaluation of `deploy` on a healthy environment -/

/-- A healthy run (config found, app name extracted, app and assets folders
present, authenticated, provisioning success or 409): `deploy` performs
`whoami`, the provisioning POST, on a new Space the card load with its
internal `README.md` cache download followed by the two explicit cache
downloads, and one `create_commit` whose operations are the four sections
in source order. -/
theorem deploy_valid_eq (env : Env) {an u : Str} {appFiles assetsFiles : List Str}
    {b : Bool}
    (hc : env.configExists = true)
    (hn : searchAppName env.configText = some an)
    (ha : env.folders.lookup an = some appFiles)
    (hs : env.folders.lookup ("assets".toList) = some assetsFiles)
    (hu : env.username = some u)
    (hb : isNewStatus env.provisionStatus = some b) :
    deploy env =
      ⟨[Effect.whoamiCall,
        Effect.provisionCall (u ++ "/".toList ++ curatedAppName an) env.isPrivate]
        ++ (if b then
              [Effect.loadCardCall (u ++ "/".toList ++ curatedAppName an),
               Effect.cacheDownload (u ++ "/".toList ++ curatedAppName an)
                 ("README.md".toList),
               Effect.cacheDownload (u ++ "/".toList ++ curatedAppName an)
                 ("pcconfig_docker.py".toList),
               Effect.cacheDownload (u ++ "/".toList ++ curatedAppName an)
                 ("Dockerfile".toList)]
            else [])
        ++ [Effect.commitCall (u ++ "/".toList ++ curatedAppName an)
              (if b then "Deploy ".toList ++ an ++ "!".toList
               else "Update ".toList ++ an)
              ((if b then
                  newRepoOps env an (curatedAppName an)
                    ("https://".toList ++ u ++ "-".toList ++ curatedAppName an
                      ++ ".hf.space".toList)
                else [])
               ++ requirementsOps env
               ++ assetsOps assetsFiles
               ++ appFolderOps b an appFiles)],
       none⟩ := by
  simp only [deploy, hc, hn, ha, hs, hu, hb, if_true]

/-- A run whose provisioning POST answered an error status other than 409
stops with the `UnboundLocalError` at `if is_new:` — after the `whoami` and
provisioning calls, before any operation is constructed and before any
commit. -/
theorem deploy_unbound_eq (env : Env) {an u : Str} {appFiles assetsFiles : List Str}
    (hc : env.configExists = true)
    (hn : searchAppName env.configText = some an)
    (ha : env.folders.lookup an = some appFiles)
    (hs : env.folders.lookup ("assets".toList) = some assetsFiles)
    (hu : env.username = some u)
    (hb : isNewStatus env.provisionStatus = none) :
    deploy env =
      ⟨[Effect.whoamiCall,
        Effect.provisionCall (u ++ "/".toList ++ curatedAppName an) env.isPrivate],
       some .unboundLocalIsNew⟩ := by
  simp only [deploy, hc, hn, ha, hs, hu, hb, if_true]

/-- The operation list of the single commit of a healthy run. -/
theorem allCommitOps_deploy (env : Env) {an u : Str}
    {appFiles assetsFiles : List Str} {b : Bool}
    (hc : env.configExists = true)
    (hn : searchAppName env.configText = some an)
    (ha : env.folders.lookup an = some appFiles)
    (hs : env.folders.lookup ("assets".toList) = some assetsFiles)
    (hu : env.username = some u)
    (hb : isNewStatus env.provisionStatus = some b) :
    allCommitOps (deploy env).effects =
      (if b then
          newRepoOps env an (curatedAppName an)
            ("https://".toList ++ u ++ "-".toList ++ curatedAppName an
              ++ ".hf.space".toList)
        else [])
      ++ requirementsOps env
      ++ assetsOps assetsFiles
      ++ appFolderOps b an appFiles := by
  rw [deploy_valid_eq env hc hn ha hs hu hb]
  cases b <;> simp [allCommitOps]

/-- The single commit of a healthy run, with its repo id, message and
operations. -/
theorem commitsIn_deploy (env : Env) {an u : Str}
    {appFiles assetsFiles : List Str} {b : Bool}
    (hc : env.configExists = true)
    (hn : searchAppName env.configText = some an)
    (ha : env.folders.lookup an = some appFiles)
    (hs : env.folders.lookup ("assets".toList) = some assetsFiles)
    (hu : env.username = some u)
    (hb : isNewStatus env.provisionStatus = some b) :
    commitsIn (deploy env).effects =
      [(u ++ "/".toList ++ curatedAppName an,
        (if b then "Deploy ".toList ++ an ++ "!".toList
         else "Update ".toList ++ an),
        (if b then
            newRepoOps env an (curatedAppName an)
              ("https://".toList ++ u ++ "-".toList ++ curatedAppName an
                ++ ".hf.space".toList)
          else [])
        ++ requirementsOps env
        ++ assetsOps assetsFiles
        ++ appFolderOps b an appFiles)] := by
  rw [deploy_valid_eq env hc hn ha hs hu hb]
  cases b <;> simp [commitsIn]

/-- The local-filesystem writes of a healthy run: the three cache downloads
(the card's `README.md` via `RepoCard.load`, then `pcconfig_docker.py` and
`Dockerfile`) on a new Space, nothing otherwise. -/
theorem localWrites_deploy (env : Env) {an u : Str}
    {appFiles assetsFiles : List Str} {b : Bool}
    (hc : env.configExists = true)
    (hn : searchAppName env.configText = some an)
    (ha : env.folders.lookup an = some appFiles)
    (hs : env.folders.lookup ("assets".toList) = some assetsFiles)
    (hu : env.username = some u)
    (hb : isNewStatus env.provisionStatus = some b) :
    localWrites (deploy env).effects =
      if b then
        [Effect.cacheDownload (u ++ "/".toList ++ curatedAppName an)
           ("README.md".toList),
         Effect.cacheDownload (u ++ "/".toList ++ curatedAppName an)
           ("pcconfig_docker.py".toList),
         Effect.cacheDownload (u ++ "/".toList ++ curatedAppName an)
           ("Dockerfile".toList)]
      else [] := by
  rw [deploy_valid_eq env hc hn ha hs hu hb]
  cases b <;> simp [localWrites]

/-! ### The claims -/

/-- The character class `[A-Za-z0-9-]` asserted by claim C1. -/
def claimCharClass (c : Char) : Bool := c.isAlphanum || c = '-'

/-- Claim C1, counterexample: on input `"My App!!_2"` the curated-name
computation produces `"My-App-_2"`, not the claimed `"My-App-2"`, and the
output contains `'_'`, which is outside the claimed class `[A-Za-z0-9-]`
(the code substitutes `\W`, and `'_'` is a word character). -/
theorem c1_curated_name_ce :
    curatedAppName ("My App!!_2".toList) = ("My-App-_2".toList)
    ∧ ("My-App-_2".toList) ≠ ("My-App-2".toList)
    ∧ '_' ∈ curatedAppName ("My App!!_2".toList)
    ∧ claimCharClass '_' = false := by decide

/-- Claim C1, amended: for every input string of ASCII characters the
curated-name computation produces a string containing only word characters
(`[A-Za-z0-9_]` — underscores are preserved) and `'-'`, with no two
consecutive `'-'` and no leading or trailing `'-'`; on input `"My App!!_2"`
it produces `"My-App-_2"`.  (The ASCII hypothesis marks where the model's
`wordCharB` coincides with Python's default Unicode `\w`; the corrected
example is proved in the counterexample theorem.) -/
theorem c1_curated_name_amended (s : Str) (_hascii : ∀ c ∈ s, c.toNat ≤ 127) :
    (∀ a ∈ curatedAppName s, wordCharB a = true ∨ a = '-')
    ∧ List.Chain' noDD (curatedAppName s)
    ∧ (curatedAppName s).head? ≠ some '-'
    ∧ (curatedAppName s).getLast? ≠ some '-' :=
  ⟨fun _ ha => mem_curatedAppName ha,
   chain'_stripDashes (chain'_collapseDashes _),
   head?_stripDashes _,
   getLast?_stripDashes _⟩

/-- Witness for `c1_curated_name_amended` at the concrete input
`"My App!!_2"`. -/
theorem c1_curated_name_amended_witness :
    (∀ c ∈ ("My App!!_2".toList), c.toNat ≤ 127)
    ∧ ((∀ a ∈ curatedAppName ("My App!!_2".toList), wordCharB a = true ∨ a = '-')
       ∧ List.Chain' noDD (curatedAppName ("My App!!_2".toList))
       ∧ (curatedAppName ("My App!!_2".toList)).head? ≠ some '-'
       ∧ (curatedAppName ("My App!!_2".toList)).getLast? ≠ some '-') :=
  ⟨by decide, c1_curated_name_amended ("My App!!_2".toList) (by decide)⟩

/-- Claim C2: on a healthy local setup, a provisioning response with an error
status other than 409 makes `deploy` abort (with the `UnboundLocalError` on
`is_new`) right after the provisioning call: no Add/Delete operation is
constructed and no commit call is made; a 409 lets the run complete in
existing-deploy mode, committing with the `Update` message. -/
theorem c2_provisioning_error (env : Env) {an u : Str}
    {appFiles assetsFiles : List Str}
    (hc : env.configExists = true)
    (hn : searchAppName env.configText = some an)
    (ha : env.folders.lookup an = some appFiles)
    (hs : env.folders.lookup ("assets".toList) = some assetsFiles)
    (hu : env.username = some u) :
    (400 ≤ env.provisionStatus → env.provisionStatus ≠ 409 →
      deploy env =
        ⟨[Effect.whoamiCall,
          Effect.provisionCall (u ++ "/".toList ++ curatedAppName an)
            env.isPrivate],
         some .unboundLocalIsNew⟩)
    ∧ (env.provisionStatus = 409 →
        (deploy env).error = none
        ∧ ∃ ops, commitsIn (deploy env).effects =
            [(u ++ "/".toList ++ curatedAppName an,
              "Update ".toList ++ an, ops)]) := by
  constructor
  · intro h1 h2
    have hb : isNewStatus env.provisionStatus = none := by
      simp only [isNewStatus, if_neg (by omega : ¬ env.provisionStatus < 400),
        if_neg h2]
    exact deploy_unbound_eq env hc hn ha hs hu hb
  · intro h409
    have hb : isNewStatus env.provisionStatus = some false := by
      simp [isNewStatus, h409]
    constructor
    · rw [deploy_valid_eq env hc hn ha hs hu hb]
    · exact ⟨_, by simpa using commitsIn_deploy env hc hn ha hs hu hb⟩

/-- Witness for `c2_provisioning_error`: a healthy layout whose provisioning
call answers HTTP 500. -/
theorem c2_provisioning_error_witness :
    ({ demoEnvNew with provisionStatus := 500 } : Env).configExists = true
    ∧ ((400 ≤ ({ demoEnvNew with provisionStatus := 500 } : Env).provisionStatus →
          ({ demoEnvNew with provisionStatus := 500 } : Env).provisionStatus ≠ 409 →
          deploy { demoEnvNew with provisionStatus := 500 } =
            ⟨[Effect.whoamiCall,
              Effect.provisionCall (("user".toList) ++ "/".toList
                ++ curatedAppName ("demo".toList))
                ({ demoEnvNew with provisionStatus := 500 } : Env).isPrivate],
             some .unboundLocalIsNew⟩)
        ∧ (({ demoEnvNew with provisionStatus := 500 } : Env).provisionStatus = 409 →
            (deploy { demoEnvNew with provisionStatus := 500 }).error = none
            ∧ ∃ ops,
                commitsIn (deploy { demoEnvNew with provisionStatus := 500 }).effects =
                  [(("user".toList) ++ "/".toList ++ curatedAppName ("demo".toList),
                    "Update ".toList ++ ("demo".toList), ops)])) :=
  ⟨rfl, c2_provisioning_error _ rfl (by decide)
    (by decide :
      ({ demoEnvNew with provisionStatus := 500 } : Env).folders.lookup
        ("demo".toList) = some (["index.py".toList]))
    (by decide :
      ({ demoEnvNew with provisionStatus := 500 } : Env).folders.lookup
        ("assets".toList) = some (["logo.png".toList]))
    rfl⟩

/-- Claim C7, counterexample: in the end-to-end first-run example the commit
message is `"Deploy demo!"` (with an exclamation mark), not the pattern
`"Deploy {app}"` the claim states — the claim is internally inconsistent and
its first half fails on the code. -/
theorem c7_commit_message_ce :
    (commitsIn (deploy demoEnvNew).effects).map (fun x => x.2.1)
      = [("Deploy demo!".toList)]
    ∧ ("Deploy demo!".toList) ≠ ("Deploy demo".toList) := by decide

/-- Claim C7, amended: the single commit is submitted with message
`"Deploy {app}!"` when the repository is new and `"Update {app}"` when it
already exists; in the end-to-end example the message is `"Deploy demo!"`. -/
theorem c7_commit_message_amended (env : Env) {an u : Str}
    {appFiles assetsFiles : List Str} {b : Bool}
    (hc : env.configExists = true)
    (hn : searchAppName env.configText = some an)
    (ha : env.folders.lookup an = some appFiles)
    (hs : env.folders.lookup ("assets".toList) = some assetsFiles)
    (hu : env.username = some u)
    (hb : isNewStatus env.provisionStatus = some b) :
    ∃ ops, commitsIn (deploy env).effects =
      [(u ++ "/".toList ++ curatedAppName an,
        (if b then "Deploy ".toList ++ an ++ "!".toList
         else "Update ".toList ++ an),
        ops)] :=
  ⟨_, commitsIn_deploy env hc hn ha hs hu hb⟩

/-- Witness for `c7_commit_message_amended` on the first-run example. -/
theorem c7_commit_message_amended_witness :
    isNewStatus demoEnvNew.provisionStatus = some true
    ∧ ∃ ops, commitsIn (deploy demoEnvNew).effects =
        [(("user".toList) ++ "/".toList ++ curatedAppName ("demo".toList),
          (if true then "Deploy ".toList ++ ("demo".toList) ++ "!".toList
           else "Update ".toList ++ ("demo".toList)),
          ops)] :=
  ⟨rfl, c7_commit_message_amended demoEnvNew rfl (by decide)
    (by decide :
      demoEnvNew.folders.lookup ("demo".toList) = some (["index.py".toList]))
    (by decide :
      demoEnvNew.folders.lookup ("assets".toList) = some (["logo.png".toList]))
    rfl rfl⟩

/-- Claim C10: an extracted app name with no word characters (here `"---"`)
curates to the empty string, and `deploy` raises no configuration error for
it: the run proceeds and issues the provisioning request for the degenerate
repo id `"user/"`. -/
theorem c10_empty_curated_name :
    curatedAppName ("---".toList) = []
    ∧ (deploy dashNameEnv).error = none
    ∧ Effect.provisionCall ("user/".toList) false ∈ (deploy dashNameEnv).effects := by
  decide

/-- Claim C8, counterexample: a first-time deploy writes to the local file
system — `RepoCard.load` stores the Space's card `README.md` in the local
hub cache, and `hf_hub_download` stores the fetched `pcconfig_docker.py`
and `Dockerfile` there too — so "never mutates local filesystem state"
fails. -/
theorem c8_local_mutation_ce :
    localWrites (deploy demoEnvNew).effects =
      [Effect.cacheDownload ("user/demo".toList) ("README.md".toList),
       Effect.cacheDownload ("user/demo".toList) ("pcconfig_docker.py".toList),
       Effect.cacheDownload ("user/demo".toList) ("Dockerfile".toList)]
    ∧ localWrites (deploy demoEnvNew).effects ≠ [] := by decide

/-- Claim C8, amended: apart from the hub-download cache a run performs
network calls and console output only: an existing-deploy (409) run performs
no local write at all, and every local write of any healthy run is one of
the three first-deploy cache stores — the Space's card `README.md`
(downloaded internally by `RepoCard.load`), `pcconfig_docker.py`, and
`Dockerfile`. -/
theorem c8_local_mutation_amended (env : Env) {an u : Str}
    {appFiles assetsFiles : List Str} {b : Bool}
    (hc : env.configExists = true)
    (hn : searchAppName env.configText = some an)
    (ha : env.folders.lookup an = some appFiles)
    (hs : env.folders.lookup ("assets".toList) = some assetsFiles)
    (hu : env.username = some u)
    (hb : isNewStatus env.provisionStatus = some b) :
    (b = false → localWrites (deploy env).effects = [])
    ∧ ∀ e ∈ localWrites (deploy env).effects,
        e = Effect.cacheDownload (u ++ "/".toList ++ curatedAppName an)
              ("README.md".toList)
        ∨ e = Effect.cacheDownload (u ++ "/".toList ++ curatedAppName an)
              ("pcconfig_docker.py".toList)
        ∨ e = Effect.cacheDownload (u ++ "/".toList ++ curatedAppName an)
              ("Dockerfile".toList) := by
  rw [localWrites_deploy env hc hn ha hs hu hb]
  constructor
  · intro hbf; simp [hbf]
  · intro e he
    cases b
    · simp at he
    · simp only [if_pos] at he
      rcases List.mem_cons.mp he with h | h
      · exact Or.inl h
      · rcases List.mem_cons.mp h with h | h
        · exact Or.inr (Or.inl h)
        · rcases List.mem_cons.mp h with h | h
          · exact Or.inr (Or.inr h)
          · simp at h

/-- Witness for `c8_local_mutation_amended` on the existing-deploy example
(HTTP 409): no local writes at all. -/
theorem c8_local_mutation_amended_witness :
    isNewStatus demoEnvOld.provisionStatus = some false
    ∧ ((false = false → localWrites (deploy demoEnvOld).effects = [])
       ∧ ∀ e ∈ localWrites (deploy demoEnvOld).effects,
           e = Effect.cacheDownload (("user".toList) ++ "/".toList
                 ++ curatedAppName ("demo".toList)) ("README.md".toList)
           ∨ e = Effect.cacheDownload (("user".toList) ++ "/".toList
                 ++ curatedAppName ("demo".toList)) ("pcconfig_docker.py".toList)
           ∨ e = Effect.cacheDownload (("user".toList) ++ "/".toList
                 ++ curatedAppName ("demo".toList)) ("Dockerfile".toList)) :=
  ⟨rfl, c8_local_mutation_amended demoEnvOld rfl (by decide)
    (by decide :
      demoEnvOld.folders.lookup ("demo".toList) = some (["index.py".toList]))
    (by decide :
      demoEnvOld.folders.lookup ("assets".toList) = some (["logo.png".toList]))
    rfl rfl⟩

/-- Claim C9: the `README.md` presence check and read resolve against the
process's current working directory, not the config file's folder — `deploy`
is entirely independent of a `README.md` sitting next to the config file,
and the body text committed on a new deploy is the CWD one. -/
theorem c9_readme_cwd (env : Env) {an u t : Str}
    {appFiles assetsFiles : List Str}
    (hc : env.configExists = true)
    (hn : searchAppName env.configText = some an)
    (ha : env.folders.lookup an = some appFiles)
    (hs : env.folders.lookup ("assets".toList) = some assetsFiles)
    (hu : env.username = some u)
    (hb : isNewStatus env.provisionStatus = some true)
    (ht : env.cwdReadme = some t) (r : Option Str) :
    deploy { env with configDirReadme := r } = deploy env
    ∧ CommitOperation.add ("README.md".toList)
        (.card env.remoteCardMeta (titleOf (curatedAppName an)) t)
        ∈ allCommitOps (deploy env).effects := by
  constructor
  · cases env; rfl
  · rw [allCommitOps_deploy env hc hn ha hs hu hb]
    simp [newRepoOps, readmeText, ht]

/-- Witness for `c9_readme_cwd`: a `README.md` next to the config file is
ignored; the CWD `README.md` text `"hello"` is committed. -/
theorem c9_readme_cwd_witness :
    demoEnvNew.cwdReadme = some ("hello".toList)
    ∧ (deploy { demoEnvNew with configDirReadme := some ("x".toList) }
         = deploy demoEnvNew
       ∧ CommitOperation.add ("README.md".toList)
           (.card demoEnvNew.remoteCardMeta
             (titleOf (curatedAppName ("demo".toList))) ("hello".toList))
           ∈ allCommitOps (deploy demoEnvNew).effects) :=
  ⟨rfl, c9_readme_cwd demoEnvNew rfl (by decide)
    (by decide :
      demoEnvNew.folders.lookup ("demo".toList) = some (["index.py".toList]))
    (by decide :
      demoEnvNew.folders.lookup ("assets".toList) = some (["logo.png".toList]))
    rfl rfl rfl (some ("x".toList))⟩

/-- Claim C4: the app-folder sync of a healthy run is a suffix of the
operation list consisting of one folder Delete — targeting the fixed
placeholder `"default_app"` when the deploy is new, the app's own name when
updating — followed by an Add for every file of the local app folder except
those whose path contains `__pycache__`, each under its path relative to the
config folder. -/
theorem c4_app_folder_sync (env : Env) {an u : Str}
    {appFiles assetsFiles : List Str} {b : Bool}
    (hc : env.configExists = true)
    (hn : searchAppName env.configText = some an)
    (ha : env.folders.lookup an = some appFiles)
    (hs : env.folders.lookup ("assets".toList) = some assetsFiles)
    (hu : env.username = some u)
    (hb : isNewStatus env.provisionStatus = some b) :
    ∃ pre, allCommitOps (deploy env).effects =
      pre ++ (CommitOperation.delete (if b then "default_app".toList else an) true ::
        (appFiles.filter fun f =>
            !(hasSub ("__pycache__".toList) (an ++ "/".toList ++ f))).map fun f =>
          CommitOperation.add (an ++ "/".toList ++ f)
            (.localFile (an ++ "/".toList ++ f))) := by
  refine ⟨(if b then
      newRepoOps env an (curatedAppName an)
        ("https://".toList ++ u ++ "-".toList ++ curatedAppName an
          ++ ".hf.space".toList)
    else []) ++ requirementsOps env ++ assetsOps assetsFiles, ?_⟩
  rw [allCommitOps_deploy env hc hn ha hs hu hb]
  simp [appFolderOps, List.append_assoc]

/-- Witness for `c4_app_folder_sync` on the first-run example. -/
theorem c4_app_folder_sync_witness :
    isNewStatus demoEnvNew.provisionStatus = some true
    ∧ ∃ pre, allCommitOps (deploy demoEnvNew).effects =
        pre ++ (CommitOperation.delete
            (if true then "default_app".toList else ("demo".toList)) true ::
          ((["index.py".toList]).filter fun f =>
              !(hasSub ("__pycache__".toList)
                (("demo".toList) ++ "/".toList ++ f))).map fun f =>
            CommitOperation.add (("demo".toList) ++ "/".toList ++ f)
              (.localFile (("demo".toList) ++ "/".toList ++ f))) :=
  ⟨rfl, c4_app_folder_sync demoEnvNew rfl (by decide)
    (by decide :
      demoEnvNew.folders.lookup ("demo".toList) = some (["index.py".toList]))
    (by decide :
      demoEnvNew.folders.lookup ("assets".toList) = some (["logo.png".toList]))
    rfl rfl⟩

/-! ### Shapes of the individual operation-list sections -/

theorem touches_eq_false {p : Str} {op : CommitOperation}
    (h : opPath op ≠ p) : touches p op = false := by
  simp only [touches, decide_eq_false_iff_not]
  exact h

theorem add_requirementsOps {env : Env} {p : Str} {c : FileContent}
    (h : CommitOperation.add p c ∈ requirementsOps env) :
    p = "requirements.txt".toList := by
  unfold requirementsOps at h
  split at h
  · rcases List.mem_cons.mp h with h | h
    · simp at h
    · simp at h
      exact h.1
  · simp at h

theorem add_assetsOps {assetsFiles : List Str} {p : Str} {c : FileContent}
    (h : CommitOperation.add p c ∈ assetsOps assetsFiles) :
    p.head? = some 'a' := by
  unfold assetsOps at h
  rcases List.mem_cons.mp h with h | h
  · simp at h
  · rcases List.mem_map.mp h with ⟨f, _, hf⟩
    cases hf
    rfl

theorem add_appFolderOps {b : Bool} {an : Str} {appFiles : List Str}
    {p : Str} {c : FileContent}
    (h : CommitOperation.add p c ∈ appFolderOps b an appFiles) : '/' ∈ p := by
  unfold appFolderOps at h
  rcases List.mem_cons.mp h with h | h
  · simp at h
  · rcases List.mem_map.mp h with ⟨f, _, hf⟩
    cases hf
    simp

theorem opPath_requirementsOps {env : Env} {op : CommitOperation}
    (h : op ∈ requirementsOps env) : opPath op = "requirements.txt".toList := by
  unfold requirementsOps at h
  split at h
  · rcases List.mem_cons.mp h with h | h
    · subst h; rfl
    · simp at h
      subst h; rfl
  · simp at h

theorem opPath_assetsOps {assetsFiles : List Str} {op : CommitOperation}
    (h : op ∈ assetsOps assetsFiles) : (opPath op).head? = some 'a' := by
  unfold assetsOps at h
  rcases List.mem_cons.mp h with h | h
  · subst h; rfl
  · rcases List.mem_map.mp h with ⟨f, _, hf⟩
    subst hf; rfl

theorem opPath_appFolderOps {b : Bool} {an : Str} {appFiles : List Str}
    {op : CommitOperation} (h : op ∈ appFolderOps b an appFiles) :
    opPath op = (if b then "default_app".toList else an) ∨ '/' ∈ opPath op := by
  unfold appFolderOps at h
  rcases List.mem_cons.mp h with h | h
  · subst h; exact Or.inl rfl
  · rcases List.mem_map.mp h with ⟨f, _, hf⟩
    subst hf
    exact Or.inr (by simp [opPath])

theorem add_newRepoOps {env : Env} {app_name curated url p : Str} {c : FileContent}
    (h : CommitOperation.add p c ∈ newRepoOps env app_name curated url) :
    p = "README.md".toList ∨ p = "pcconfig_docker.py".toList
      ∨ p = "Dockerfile".toList := by
  unfold newRepoOps at h
  simp at h
  rcases h with h | h | h
  · exact Or.inl h.1
  · exact Or.inr (Or.inl h.1)
  · exact Or.inr (Or.inr h.1)

theorem opPath_newRepoOps {env : Env} {app_name curated url : Str}
    {op : CommitOperation} (h : op ∈ newRepoOps env app_name curated url) :
    opPath op = "README.md".toList ∨ opPath op = "pcconfig_docker.py".toList
      ∨ opPath op = "Dockerfile".toList := by
  unfold newRepoOps at h
  rcases List.mem_cons.mp h with h | h
  · subst h; exact Or.inl rfl
  · rcases List.mem_cons.mp h with h | h
    · subst h; exact Or.inr (Or.inl rfl)
    · rcases List.mem_cons.mp h with h | h
      · subst h; exact Or.inr (Or.inr rfl)
      · simp at h

/-- No Add with a path outside the three sections' paths exists in an
existing-deploy operation list. -/
theorem noTemplateAdd_oldOps {env : Env} {assetsFiles : List Str} {b : Bool}
    {an : Str} {appFiles : List Str} {p : Str} {c : FileContent}
    (hp1 : p.head? ≠ some 'a') (hp2 : '/' ∉ p)
    (hp3 : p ≠ "requirements.txt".toList)
    (h : CommitOperation.add p c ∈
      requirementsOps env ++ assetsOps assetsFiles ++ appFolderOps b an appFiles) :
    False := by
  rcases List.mem_append.mp h with h | h
  · rcases List.mem_append.mp h with h | h
    · exact hp3 (add_requirementsOps h)
    · exact hp1 (add_assetsOps h)
  · exact hp2 (add_appFolderOps h)

/-- Claim C5, counterexample: redeploying (HTTP 409) an app literally named
`README.md` queues a folder Delete of `README.md`, so the remote README is
not left untouched. -/
theorem c5_template_files_ce :
    CommitOperation.delete ("README.md".toList) true
      ∈ allCommitOps (deploy readmeNameEnv).effects
    ∧ isNewStatus readmeNameEnv.provisionStatus = some false := by decide

/-- Claim C5, amended: Add entries for `README.md`, `pcconfig_docker.py` and
`Dockerfile` appear in the operation list of a healthy run if and only if
provisioning succeeded (first-time deploy); on 409, provided the app name is
not itself one of those three file names, no operation at all targets those
paths (the app-folder Delete targets the raw app name, which can collide). -/
theorem c5_template_files_amended (env : Env) {an u : Str}
    {appFiles assetsFiles : List Str} {b : Bool}
    (hc : env.configExists = true)
    (hn : searchAppName env.configText = some an)
    (ha : env.folders.lookup an = some appFiles)
    (hs : env.folders.lookup ("assets".toList) = some assetsFiles)
    (hu : env.username = some u)
    (hb : isNewStatus env.provisionStatus = some b) :
    ((∃ c, CommitOperation.add ("README.md".toList) c
        ∈ allCommitOps (deploy env).effects) ↔ b = true)
    ∧ ((∃ c, CommitOperation.add ("pcconfig_docker.py".toList) c
        ∈ allCommitOps (deploy env).effects) ↔ b = true)
    ∧ ((∃ c, CommitOperation.add ("Dockerfile".toList) c
        ∈ allCommitOps (deploy env).effects) ↔ b = true)
    ∧ (b = false →
        an ≠ "README.md".toList → an ≠ "pcconfig_docker.py".toList →
        an ≠ "Dockerfile".toList →
        ∀ op ∈ allCommitOps (deploy env).effects,
          touches ("README.md".toList) op = false
          ∧ touches ("pcconfig_docker.py".toList) op = false
          ∧ touches ("Dockerfile".toList) op = false) := by
  rw [allCommitOps_deploy env hc hn ha hs hu hb]
  cases b
  · simp only [Bool.false_eq_true, iff_false, if_false, List.nil_append,
      IsEmpty.forall_iff, forall_const]
    refine ⟨?_, ?_, ?_, ?_⟩
    · rintro ⟨c, hc'⟩
      exact noTemplateAdd_oldOps (by decide) (by decide) (by decide) hc'
    · rintro ⟨c, hc'⟩
      exact noTemplateAdd_oldOps (by decide) (by decide) (by decide) hc'
    · rintro ⟨c, hc'⟩
      exact noTemplateAdd_oldOps (by decide) (by decide) (by decide) hc'
    · intro h1 h2 h3 op hop
      rcases List.mem_append.mp hop with hop | hop
      · rcases List.mem_append.mp hop with hop | hop
        · have hp := opPath_requirementsOps hop
          refine ⟨touches_eq_false ?_, touches_eq_false ?_, touches_eq_false ?_⟩
            <;> rw [hp] <;> decide
        · have hp := opPath_assetsOps hop
          refine ⟨touches_eq_false ?_, touches_eq_false ?_, touches_eq_false ?_⟩
            <;> (intro he; rw [he] at hp; revert hp; decide)
      · rcases opPath_appFolderOps hop with hp | hp
        · simp only [Bool.false_eq_true, if_false] at hp
          refine ⟨touches_eq_false ?_, touches_eq_false ?_, touches_eq_false ?_⟩
            <;> rw [hp] <;> assumption
        · refine ⟨touches_eq_false ?_, touches_eq_false ?_, touches_eq_false ?_⟩
            <;> (intro he; rw [he] at hp; revert hp; decide)
  · simp only [if_true, iff_true]
    refine ⟨?_, ?_, ?_, ?_⟩
    · exact ⟨FileContent.card env.remoteCardMeta (titleOf (curatedAppName an))
        (readmeText env an), by simp [newRepoOps]⟩
    · exact ⟨FileContent.bytes (replaceAll
        ("https://wauplin-pynecone-on-spaces-template.hf.space/pynecone-backend".toList)
        (("https://".toList ++ u ++ "-".toList ++ curatedAppName an
          ++ ".hf.space".toList) ++ "/pynecone-backend".toList)
        (replaceAll ("default_app".toList) an env.remotePcconfigDocker)),
        by simp [newRepoOps]⟩
    · exact ⟨FileContent.bytes
        (replaceAll ("default_app".toList) an env.remoteDockerfile),
        by simp [newRepoOps]⟩
    · intro h
      exact absurd h (by decide)

/-- Witness for `c5_template_files_amended` on the existing-deploy example. -/
theorem c5_template_files_amended_witness :
    isNewStatus demoEnvOld.provisionStatus = some false
    ∧ (((∃ c, CommitOperation.add ("README.md".toList) c
          ∈ allCommitOps (deploy demoEnvOld).effects) ↔ false = true)
       ∧ ((∃ c, CommitOperation.add ("pcconfig_docker.py".toList) c
          ∈ allCommitOps (deploy demoEnvOld).effects) ↔ false = true)
       ∧ ((∃ c, CommitOperation.add ("Dockerfile".toList) c
          ∈ allCommitOps (deploy demoEnvOld).effects) ↔ false = true)
       ∧ (false = false →
          ("demo".toList) ≠ "README.md".toList →
          ("demo".toList) ≠ "pcconfig_docker.py".toList →
          ("demo".toList) ≠ "Dockerfile".toList →
          ∀ op ∈ allCommitOps (deploy demoEnvOld).effects,
            touches ("README.md".toList) op = false
            ∧ touches ("pcconfig_docker.py".toList) op = false
            ∧ touches ("Dockerfile".toList) op = false)) :=
  ⟨rfl, c5_template_files_amended demoEnvOld rfl (by decide)
    (by decide :
      demoEnvOld.folders.lookup ("demo".toList) = some (["index.py".toList]))
    (by decide :
      demoEnvOld.folders.lookup ("assets".toList) = some (["logo.png".toList]))
    rfl rfl⟩

/-- Claim C6, counterexample: redeploying (HTTP 409) an app literally named
`assets` — the app folder *is* the assets folder — queues the folder Delete
of `"assets"` twice (once from the assets sync, once from the app-folder
sync), so "exactly one Delete(assets)" fails. -/
theorem c6_assets_sync_ce :
    (allCommitOps (deploy assetsNameEnv).effects).countP
        (fun op => decide (op = CommitOperation.delete ("assets".toList) true)) = 2
    ∧ ((allCommitOps (deploy assetsNameEnv).effects).countP
        (fun op => decide (op = CommitOperation.delete ("assets".toList) true)) ≠ 1) := by
  decide

/-- Claim C6, amended: in a healthy run — provided the deploy is new or the
app name is not literally `"assets"` — the operation list contains exactly
one `Delete("assets", is_folder=true)`; it precedes every Add of a file
under the local assets directory (those Adds follow it immediately, each
with path exactly the file's path relative to the config folder), and no
operation before it deletes `"assets"` or adds any `assets/`-prefixed
path. -/
theorem c6_assets_sync_amended (env : Env) {an u : Str}
    {appFiles assetsFiles : List Str} {b : Bool}
    (hc : env.configExists = true)
    (hn : searchAppName env.configText = some an)
    (ha : env.folders.lookup an = some appFiles)
    (hs : env.folders.lookup ("assets".toList) = some assetsFiles)
    (hu : env.username = some u)
    (hb : isNewStatus env.provisionStatus = some b)
    (hside : b = true ∨ an ≠ "assets".toList) :
    (allCommitOps (deploy env).effects).countP
        (fun op => decide (op = CommitOperation.delete ("assets".toList) true)) = 1
    ∧ ∃ pre post,
        allCommitOps (deploy env).effects =
          pre ++ (CommitOperation.delete ("assets".toList) true ::
            assetsFiles.map fun f =>
              CommitOperation.add ("assets/".toList ++ f)
                (.localFile ("assets/".toList ++ f))) ++ post
        ∧ (∀ op ∈ pre, op ≠ CommitOperation.delete ("assets".toList) true
             ∧ ∀ p c, op = CommitOperation.add p c →
                 isPrefixL ("assets/".toList) p = false)
        ∧ (∀ op ∈ post, op ≠ CommitOperation.delete ("assets".toList) true) := by
  have hdel : (if b then "default_app".toList else an) ≠ "assets".toList := by
    cases b
    · rcases hside with h | h
      · exact absurd h (by decide)
      · simpa using h
    · simp only [if_true]
      decide
  rw [allCommitOps_deploy env hc hn ha hs hu hb]
  constructor
  · rw [List.countP_append, List.countP_append, List.countP_append]
    have hX : (if b then
        newRepoOps env an (curatedAppName an)
          ("https://".toList ++ u ++ "-".toList ++ curatedAppName an
            ++ ".hf.space".toList)
      else []).countP
        (fun op => decide (op = CommitOperation.delete ("assets".toList) true))
        = 0 := by
      cases b
      · simp
      · simp only [if_true]
        apply List.countP_eq_zero.mpr
        intro op hop
        have hthree := opPath_newRepoOps hop
        simp only [decide_eq_true_eq]
        intro he
        rw [he] at hthree
        revert hthree
        decide
    have hB : (requirementsOps env).countP
        (fun op => decide (op = CommitOperation.delete ("assets".toList) true))
        = 0 := by
      apply List.countP_eq_zero.mpr
      intro op hop
      have hreq := opPath_requirementsOps hop
      simp only [decide_eq_true_eq]
      intro he
      rw [he] at hreq
      revert hreq
      decide
    have hC : (assetsOps assetsFiles).countP
        (fun op => decide (op = CommitOperation.delete ("assets".toList) true))
        = 1 := by
      unfold assetsOps
      rw [List.countP_cons]
      have hmap : (assetsFiles.map fun f =>
          CommitOperation.add ("assets/".toList ++ f)
            (.localFile ("assets/".toList ++ f))).countP
          (fun op => decide (op = CommitOperation.delete ("assets".toList) true))
          = 0 := by
        apply List.countP_eq_zero.mpr
        intro op hop
        rcases List.mem_map.mp hop with ⟨f, _, hf⟩
        subst hf
        simp
      rw [hmap]
      simp
    have hD : (appFolderOps b an appFiles).countP
        (fun op => decide (op = CommitOperation.delete ("assets".toList) true))
        = 0 := by
      apply List.countP_eq_zero.mpr
      intro op hop
      rcases opPath_appFolderOps hop with hp | hp
        <;> simp only [decide_eq_true_eq]
        <;> intro he
        <;> rw [he] at hp
      · exact hdel hp.symm
      · revert hp
        decide
    rw [hX, hB, hC, hD]
  · refine ⟨(if b then
        newRepoOps env an (curatedAppName an)
          ("https://".toList ++ u ++ "-".toList ++ curatedAppName an
            ++ ".hf.space".toList)
      else []) ++ requirementsOps env, appFolderOps b an appFiles, ?_, ?_, ?_⟩
    · simp [assetsOps, List.append_assoc]
    · intro op hop
      rcases List.mem_append.mp hop with hop | hop
      · cases b
        · simp at hop
        · simp only [if_true] at hop
          constructor
          · intro he
            have hthree := opPath_newRepoOps hop
            rw [he] at hthree
            revert hthree
            decide
          · intro p c he
            rw [he] at hop
            rcases add_newRepoOps hop with h | h | h <;> subst h <;> decide
      · constructor
        · intro he
          have hreq := opPath_requirementsOps hop
          rw [he] at hreq
          revert hreq
          decide
        · intro p c he
          rw [he] at hop
          have := add_requirementsOps hop
          subst this
          decide
    · intro op hop
      intro he
      rcases opPath_appFolderOps hop with hp | hp <;> rw [he] at hp
      · exact hdel hp.symm
      · revert hp
        decide

/-- Witness for `c6_assets_sync_amended` on the existing-deploy example
(app name `demo`, not `assets`). -/
theorem c6_assets_sync_amended_witness :
    (isNewStatus demoEnvOld.provisionStatus = some false
      ∧ (false = true ∨ ("demo".toList) ≠ "assets".toList))
    ∧ ((allCommitOps (deploy demoEnvOld).effects).countP
          (fun op => decide (op = CommitOperation.delete ("assets".toList) true)) = 1
       ∧ ∃ pre post,
          allCommitOps (deploy demoEnvOld).effects =
            pre ++ (CommitOperation.delete ("assets".toList) true ::
              (["logo.png".toList]).map fun f =>
                CommitOperation.add ("assets/".toList ++ f)
                  (.localFile ("assets/".toList ++ f))) ++ post
          ∧ (∀ op ∈ pre, op ≠ CommitOperation.delete ("assets".toList) true
               ∧ ∀ p c, op = CommitOperation.add p c →
                   isPrefixL ("assets/".toList) p = false)
          ∧ (∀ op ∈ post, op ≠ CommitOperation.delete ("assets".toList) true)) :=
  ⟨⟨rfl, by decide⟩, c6_assets_sync_amended demoEnvOld rfl (by decide)
    (by decide :
      demoEnvOld.folders.lookup ("demo".toList) = some (["index.py".toList]))
    (by decide :
      demoEnvOld.folders.lookup ("assets".toList) = some (["logo.png".toList]))
    rfl rfl (by decide)⟩

/-! ### The regex extraction on an exact assignment -/

theorem isPrefixL_append_self : ∀ (p rest : Str), isPrefixL p (p ++ rest) = true
  | [], _ => rfl
  | a :: as, rest => by simp [isPrefixL, isPrefixL_append_self as rest]

theorem groupOK_at_name {name : Str} (h2 : ∀ c ∈ name, ¬(c = '\n')) :
    groupOK (name ++ ['"', ',']) name.length = true := by
  unfold groupOK
  rw [List.take_left, List.drop_left]
  simp only [List.all_eq_true, Bool.and_eq_true]
  refine ⟨?_, by decide⟩
  intro x hx
  simpa using h2 x hx

theorem groupOK_beyond_one {name : Str} :
    groupOK (name ++ ['"', ',']) (name.length + 1) = false := by
  unfold groupOK
  rw [List.drop_append 1]
  simp

theorem groupOK_beyond_two {name : Str} :
    groupOK (name ++ ['"', ',']) (name.length + 2) = false := by
  unfold groupOK
  rw [List.drop_append 2]
  simp

theorem greedyAux_step (rest : Str) (k : Nat) (h : groupOK rest (k + 1) = false) :
    greedyAux rest (k + 1) = greedyAux rest k := by
  simp [greedyAux, h]

theorem greedyAux_hit (rest : Str) (k : Nat) (h : groupOK rest (k + 1) = true) :
    greedyAux rest (k + 1) = some (rest.take (k + 1)) := by
  simp [greedyAux, h]

/-- The greedy group of `(.+)[\x22'],` on `name ++ "\x22,"` is exactly
`name`: group lengths `|name|+2` and `|name|+1` fail, `|name|` succeeds. -/
theorem greedyAux_exact {name : Str} (h1 : name ≠ [])
    (h2 : ∀ c ∈ name, ¬(c = '\n')) :
    greedyAux (name ++ ['"', ',']) (name.length + 2) = some name := by
  have hrw2 : name.length + 2 = (name.length + 1) + 1 := rfl
  rw [hrw2, greedyAux_step _ _ groupOK_beyond_two,
    greedyAux_step _ _ groupOK_beyond_one]
  rcases name with _ | ⟨c, cs⟩
  · exact absurd rfl h1
  · have hlen : ((c :: cs : Str)).length = cs.length + 1 := rfl
    rw [hlen, greedyAux_hit _ _ (by exact groupOK_at_name h2)]
    rw [show cs.length + 1 = ((c :: cs : Str)).length from rfl, List.take_left]

theorem matchGroupAt_exact {name : Str} (h1 : name ≠ [])
    (h2 : ∀ c ∈ name, ¬(c = '\n')) :
    matchGroupAt (("app_name=\"".toList) ++ name ++ ("\",".toList))
      = some name := by
  have hfull : ("app_name=\"".toList) ++ name ++ ("\",".toList)
      = ("app_name=".toList) ++ ('"' :: (name ++ ['"', ','])) := by
    simp
  rw [hfull]
  unfold matchGroupAt
  rw [isPrefixL_append_self]
  have h9 : (("app_name=".toList) ++ ('"' :: (name ++ ['"', ',']))).drop 9
      = '"' :: (name ++ ['"', ',']) :=
    List.drop_left ("app_name=".toList) ('"' :: (name ++ ['"', ',']))
  rw [h9]
  simp only [if_true]
  have hq : isQuote '"' = true := by decide
  rw [hq]
  simp only [if_true]
  have hlen : (name ++ ['"', ',']).length = name.length + 2 := by
    simp [List.length_append]
  rw [hlen]
  exact greedyAux_exact h1 h2

theorem searchAppName_exact {name : Str} (h1 : name ≠ [])
    (h2 : ∀ c ∈ name, ¬(c = '\n')) :
    searchAppName (("app_name=\"".toList) ++ name ++ ("\",".toList))
      = some name := by
  have hcons : ("app_name=\"".toList) ++ name ++ ("\",".toList)
      = 'a' :: (("pp_name=\"".toList) ++ name ++ ("\",".toList)) := rfl
  rw [hcons]
  have hm : matchGroupAt
      ('a' :: (("pp_name=\"".toList) ++ name ++ ("\",".toList))) = some name :=
    matchGroupAt_exact h1 h2
  rw [searchAppName, hm]

/-- A config whose text has no regex match makes `deploy` fail immediately
with the error naming `app_name` (no effect is performed). -/
theorem deploy_noAppName {env : Env} (hc : env.configExists = true)
    (hn : searchAppName env.configText = none) :
    deploy env = ⟨[], some .appNameNotFound⟩ := by
  simp only [deploy, hc, hn, if_true]

/-- Claim C3, counterexample: the regex group `.+` is greedy, so a file
containing the assignment `app_name="a",` followed on the same line by more
quoted text and a comma makes extraction return `a", b="c` rather than the
assignment's name `a`. -/
theorem c3_extraction_ce :
    searchAppName ("app_name=\"a\", b=\"c\",".toList) = some ("a\", b=\"c".toList)
    ∧ ("a\", b=\"c".toList) ≠ ("a".toList) := by decide

/-- Claim C3, amended: extraction returns the leftmost, greedy match of
`app_name=[\x22'](.+)[\x22'],`.  For a config whose text is exactly
`app_name="<name>",` with a nonempty newline-free name it returns that name
(in particular `app_name="demo_app",` yields `demo_app`); for every config
file in which the pattern does not occur, `deploy` raises the fatal error
naming the missing `app_name` field. -/
theorem c3_extraction_amended :
    (∀ name : Str, name ≠ [] → (∀ c ∈ name, ¬(c = '\n')) →
      searchAppName (("app_name=\"".toList) ++ name ++ ("\",".toList))
        = some name)
    ∧ searchAppName ("app_name=\"demo_app\",".toList) = some ("demo_app".toList)
    ∧ (∀ env : Env, env.configExists = true →
        searchAppName env.configText = none →
        deploy env = ⟨[], some DeployError.appNameNotFound⟩) :=
  ⟨fun _ h1 h2 => searchAppName_exact h1 h2, by decide,
   fun _ hc hn => deploy_noAppName hc hn⟩

/-- Witness for `c3_extraction_amended`: the exact-assignment case at
`name = "demo"`, and the fatal error on a config without the pattern. -/
theorem c3_extraction_amended_witness :
    searchAppName (("app_name=\"".toList) ++ ("demo".toList) ++ ("\",".toList))
      = some ("demo".toList)
    ∧ deploy { demoEnvNew with configText := ("no app name here".toList) }
        = ⟨[], some DeployError.appNameNotFound⟩ :=
  ⟨c3_extraction_amended.1 ("demo".toList) (by decide) (by decide),
   c3_extraction_amended.2.2 _ rfl (by decide)⟩

end PyneconeDeploy
